import Mathlib

/-!
Shallow embedding of the pub/sub `Subscription` polling subscriber
(`lib/pubsub/subscription.js`): the message-pulling and flow-control loop.

State fields mirror the constructor's fields; each prototype method becomes a
Lean function from the state (and the transport's response, where the source
installs a completion callback) to the updated state together with the ordered
list of observable actions it performs.  JS `Infinity` for `maxInProgress` is
modelled as `none`; the `inProgressAckIds` object is modelled as a
duplicate-free list of keys in insertion order (setting an existing key does
not change `Object.keys`, `delete` removes it).  Base64/JSON decoding of the
payload happens at the transport boundary and is kept abstract: `data` is the
already-decoded text, which no flow-control behaviour inspects.
-/

namespace GcloudPubsub

/-- A raw message as it appears in a pull response
(`receivedMessages[i]` with its `ackId` and inner `message`). -/
structure RawMessage where
  ackId : String
  messageId : Option String := none
  data : Option String := none
deriving DecidableEq, Repr

/-- The simplified message produced by `Subscription.formatMessage_`. -/
structure Message where
  ackId : String
  id : Option String := none
  data : Option String := none
deriving DecidableEq, Repr

/-- `Subscription.formatMessage_`: keep `ackId`, copy the inner message's
id and (decoded) data. -/
def formatMessage_ (msg : RawMessage) : Message :=
  { ackId := msg.ackId, id := msg.messageId, data := msg.data }

/-- Observable actions of the subscriber, in program order: outgoing
requests, event emissions, and the `setTimeout` re-arming of the loop. -/
inductive Action where
  | pullRequest (returnImmediately : Bool) (maxMessages : Int)
  | ackRequest (ackIds : List String)
  | ackDone (ok : Bool)
  | emitMessage (m : Message)
  | emitError
  | scheduleNext (interval : Nat)
deriving DecidableEq, Repr

/-- Mutable runtime state of a `Subscription` (constructor fields). -/
structure SubState where
  autoAck : Bool
  interval : Nat
  maxInProgress : Option Nat
  closed : Bool
  paused : Bool
  messageListeners : Int
  inProgressAckIds : List String
deriving DecidableEq, Repr

/-- Recognised constructor options (absent field = not a number/boolean). -/
structure SubOptions where
  autoAck : Option Bool := none
  interval : Option Nat := none
  maxInProgress : Option Nat := none

/-- The `Subscription` constructor's field initialisation. -/
def mkSubscription (options : SubOptions) : SubState :=
  { autoAck := options.autoAck.getD false
    interval := options.interval.getD 10
    maxInProgress := options.maxInProgress
    closed := true
    paused := false
    messageListeners := 0
    inProgressAckIds := [] }

/-- `inProgress >= this.maxInProgress` with `Infinity` as `none`
(a finite count is never `>= Infinity`). -/
def isAtCapacity (maxInProgress : Option Nat) (c : Nat) : Bool :=
  match maxInProgress with
  | none => false
  | some m => m ≤ c

/-- `this.inProgressAckIds[ackId] = true`: object-key insertion, a no-op on
an existing key. -/
def trackAckId (t : List String) (a : String) : List String :=
  if a ∈ t then t else t ++ [a]

/-- `delete this.inProgressAckIds[ackId]`: remove the key if present. -/
def resolveAck (t : List String) (a : String) : List String :=
  t.filter (fun x => decide (x ≠ a))

/-- The state-mutating part of `Subscription.prototype.decorateMessage_`:
record the message's ackId as in progress. -/
def decorateMessage_ (s : SubState) (m : Message) : SubState :=
  { s with inProgressAckIds := trackAckId s.inProgressAckIds m.ackId }

/-- `maxResults` computed by `startPulling_`: defined only when
`maxInProgress < Infinity`, as `maxInProgress - Object.keys(...).length`. -/
def maxResultsOf (s : SubState) : Option Int :=
  match s.maxInProgress with
  | some n => some ((n : Int) - (s.inProgressAckIds.length : Int))
  | none => none

/-- `pull`'s defaulting of `options.maxResults`: a non-number becomes the
fixed ceiling `MAX_EVENTS_LIMIT = 1000`. -/
def pullMaxMessages (maxResults : Option Int) : Int :=
  match maxResults with
  | some n => n
  | none => 1000

/-- `Subscription.prototype.startPulling_`, up to issuing the pull request:
returns `none` when `this.closed || this.paused` (no request), otherwise the
`(returnImmediately, maxMessages)` fields of the issued request. -/
def startPulling_issue (s : SubState) : Option (Bool × Int) :=
  if s.closed = true ∨ s.paused = true then
    none
  else
    some (false, pullMaxMessages (maxResultsOf s))

/-- The actions performed by one invocation of `startPulling_`: at most the
single pull request. -/
def startPulling_acts (s : SubState) : List Action :=
  match startPulling_issue s with
  | none => []
  | some rm => [Action.pullRequest rm.1 rm.2]

/-- `Subscription.prototype.refreshPausedStatus_`: recompute `paused` from
the in-progress count; on a paused → unpaused transition with at least one
message listener, call `startPulling_` immediately. -/
def refreshPausedStatus_ (s : SubState) : SubState × List Action :=
  let isCurrentlyPaused := s.paused
  let inProgress := s.inProgressAckIds.length
  let s1 : SubState := { s with paused := isAtCapacity s.maxInProgress inProgress }
  if isCurrentlyPaused = true ∧ s1.paused = false ∧ s.messageListeners > 0 then
    (s1, startPulling_acts s1)
  else
    (s1, [])

/-- The `skip` closure installed by `decorateMessage_`: delete the ackId
locally and refresh the paused status (no remote call). -/
def skip (s : SubState) (ackId : String) : SubState × List Action :=
  refreshPausedStatus_ { s with inProgressAckIds := resolveAck s.inProgressAckIds ackId }

/-- The synchronous part of `Subscription.prototype.ack`: after `arrify`,
an empty id list throws before any request; otherwise the single
`:acknowledge` request is issued. -/
def ack (ackIds : List String) : Except String (List Action) :=
  if ackIds.length = 0 then
    Except.error "At least one ID must be specified before it can be acknowledged."
  else
    Except.ok [Action.ackRequest ackIds]

/-- The completion callback of `ack`'s `:acknowledge` request, given the
transport outcome `ok`.  On success every id of the batch is deleted from
`inProgressAckIds` and the paused status is refreshed (possibly resuming the
loop); on error the state is untouched.  The returned `Bool` is the error
argument passed to the caller's callback (`true` = an error was passed). -/
def ackComplete (s : SubState) (ackIds : List String) (ok : Bool) :
    SubState × List Action × Bool :=
  if ok then
    let s1 : SubState := { s with inProgressAckIds := ackIds.foldl resolveAck s.inProgressAckIds }
    let p := refreshPausedStatus_ s1
    (p.1, p.2, false)
  else
    (s, [], true)

/-- The actions of `startPulling_`'s pull callback: `emit('error', ...)` when
an error argument is present, one `emit('message', ...)` per message when a
message array is present, then `setTimeout(self.startPulling_, self.interval)`
unconditionally. -/
def pullCallbackActions (err : Bool) (messages : Option (List Message)) (interval : Nat) :
    List Action :=
  (if err then [Action.emitError] else []) ++
  (match messages with
   | some ms => ms.map Action.emitMessage
   | none => []) ++
  [Action.scheduleNext interval]

/-- Result of processing one pull response through `pull`'s completion
handler composed with `startPulling_`'s callback: the final state, the
ordered action trace, and the `(err, messages)` arguments that `pull`
delivered to the callback that originated it. -/
structure CycleResult where
  state : SubState
  trace : List Action
  cbErr : Bool
  cbMessages : Option (List Message)
deriving DecidableEq, Repr

/-- One poll cycle's completion (`pull`'s response handler followed by
`startPulling_`'s callback), for the subscriber state `s` at the moment the
response arrives.  `pullResult = none` is a transport error
(`callback(err, null, response)`); `some raws` is a successful response whose
`receivedMessages` are `raws`.  `ackOk` is the outcome of the auto-ack
`:acknowledge` request when one is issued.  The source order is: format and
decorate each message, `refreshPausedStatus_`, then — when `autoAck` and the
batch is non-empty — `ack(ackIds, cb)` whose completion invokes the original
callback; otherwise the callback directly.  The callback then emits and
re-arms the loop. -/
def cycleComplete (s : SubState) (pullResult : Option (List RawMessage)) (ackOk : Bool) :
    CycleResult :=
  match pullResult with
  | none =>
    { state := s
      trace := pullCallbackActions true none s.interval
      cbErr := true
      cbMessages := none }
  | some raws =>
    let messages := raws.map formatMessage_
    let s1 := messages.foldl decorateMessage_ s
    let p1 := refreshPausedStatus_ s1
    if s.autoAck = true ∧ messages.length ≠ 0 then
      let ackIds := messages.map Message.ackId
      let q := ackComplete p1.1 ackIds ackOk
      { state := q.1
        trace := p1.2 ++ [Action.ackRequest ackIds, Action.ackDone ackOk] ++ q.2.1 ++
                 pullCallbackActions q.2.2 (some messages) s.interval
        cbErr := q.2.2
        cbMessages := some messages }
    else
      { state := p1.1
        trace := p1.2 ++ pullCallbackActions false (some messages) s.interval
        cbErr := false
        cbMessages := some messages }

/-- The `newListener` handler installed by `listenForEvents_`: on a new
`message` listener, bump the count; if the subscription was closed, reopen it
and call `startPulling_`. -/
def onNewListener (s : SubState) (event : String) : SubState × List Action :=
  if event = "message" then
    let s1 : SubState := { s with messageListeners := s.messageListeners + 1 }
    if s1.closed = true then
      let s2 : SubState := { s1 with closed := false }
      (s2, startPulling_acts s2)
    else
      (s1, [])
  else
    (s, [])

/-- The `removeListener` handler installed by `listenForEvents_`: on removal
of a `message` listener, decrement the count; when it reaches zero, close. -/
def onRemoveListener (s : SubState) (event : String) : SubState :=
  if event = "message" then
    let s1 : SubState := { s with messageListeners := s.messageListeners - 1 }
    if s1.messageListeners = 0 then { s1 with closed := true } else s1
  else
    s

/-- Trace predicate: the action is a `message` event emission. -/
def isEmitMessage : Action → Bool
  | Action.emitMessage _ => true
  | _ => false

/-- Trace predicate: the action is the completion of an `:acknowledge`
request. -/
def isAckDone : Action → Bool
  | Action.ackDone _ => true
  | _ => false

/-- Trace predicate: the action is an `:acknowledge` request. -/
def isAckRequest : Action → Bool
  | Action.ackRequest _ => true
  | _ => false

/-- `occursBefore p q tr` holds when some `p`-action occurs strictly before
some `q`-action in the trace `tr`. -/
def occursBefore (p q : Action → Bool) : List Action → Bool
  | [] => false
  | a :: rest => (p a && rest.any q) || occursBefore p q rest

/-- Operations on the acknowledgment tracker: `track` (delivery) and
`resolve` (ack success or skip). -/
inductive TrackerOp where
  | track (ackId : String)
  | resolve (ackId : String)

/-- Apply one tracker operation to the key list. -/
def applyOp (t : List String) : TrackerOp → List String
  | TrackerOp.track a => trackAckId t a
  | TrackerOp.resolve a => resolveAck t a

/-- Apply a sequence of tracker operations. -/
def applyOps (t : List String) (ops : List TrackerOp) : List String :=
  ops.foldl applyOp t

/-- Set semantics of one tracker operation. -/
def setSemOp (s : Finset String) : TrackerOp → Finset String
  | TrackerOp.track a => insert a s
  | TrackerOp.resolve a => s.erase a

/-- Set semantics of a sequence of tracker operations. -/
def setSem (s : Finset String) (ops : List TrackerOp) : Finset String :=
  ops.foldl setSemOp s

/-- A concrete auto-ack subscriber state with one listener, used to exercise
the poll cycle on explicit inputs. -/
def autoAckState : SubState :=
  { autoAck := true, interval := 10, maxInProgress := none, closed := false,
    paused := false, messageListeners := 1, inProgressAckIds := [] }

/-- A concrete closed subscriber state with no listeners, as after the last
`message` listener was removed while a pull was in flight. -/
def closedState : SubState :=
  { autoAck := false, interval := 10, maxInProgress := none, closed := true,
    paused := false, messageListeners := 0, inProgressAckIds := [] }

/-- Two raw messages of a concrete pull response. -/
def twoRaws : List RawMessage := [{ ackId := "a1" }, { ackId := "a2" }]

/-- A concrete paused subscriber at capacity `maxInProgress = 1` with one
undelivered-ack message and one listener. -/
def pausedOneState : SubState :=
  { autoAck := false, interval := 10, maxInProgress := some 1, closed := false,
    paused := true, messageListeners := 1, inProgressAckIds := ["x"] }

/- Helper lemmas. -/

theorem refreshPausedStatus_fst (s : SubState) :
    (refreshPausedStatus_ s).1 =
      { s with paused := isAtCapacity s.maxInProgress s.inProgressAckIds.length } := by
  simp only [refreshPausedStatus_]
  split <;> rfl

theorem startPulling_acts_closed (s : SubState) (h : s.closed = true) :
    startPulling_acts s = [] := by
  simp [startPulling_acts, startPulling_issue, h]

theorem startPulling_acts_eq (s : SubState) :
    startPulling_acts s = [] ∨
      startPulling_acts s = [Action.pullRequest false (pullMaxMessages (maxResultsOf s))] := by
  by_cases h : s.closed = true ∨ s.paused = true
  · left
    simp [startPulling_acts, startPulling_issue, h]
  · right
    simp [startPulling_acts, startPulling_issue, h]

theorem startPulling_acts_any_emit (s : SubState) :
    (startPulling_acts s).any isEmitMessage = false := by
  rcases startPulling_acts_eq s with h | h <;> simp [h, isEmitMessage]

theorem startPulling_acts_any_ackDone (s : SubState) :
    (startPulling_acts s).any isAckDone = false := by
  rcases startPulling_acts_eq s with h | h <;> simp [h, isAckDone]

theorem startPulling_acts_any_ackRequest (s : SubState) :
    (startPulling_acts s).any isAckRequest = false := by
  rcases startPulling_acts_eq s with h | h <;> simp [h, isAckRequest]

theorem refresh_snd_any_emit (s : SubState) :
    (refreshPausedStatus_ s).2.any isEmitMessage = false := by
  simp only [refreshPausedStatus_]
  split
  · exact startPulling_acts_any_emit _
  · rfl

theorem refresh_snd_any_ackDone (s : SubState) :
    (refreshPausedStatus_ s).2.any isAckDone = false := by
  simp only [refreshPausedStatus_]
  split
  · exact startPulling_acts_any_ackDone _
  · rfl

theorem refresh_snd_any_ackRequest (s : SubState) :
    (refreshPausedStatus_ s).2.any isAckRequest = false := by
  simp only [refreshPausedStatus_]
  split
  · exact startPulling_acts_any_ackRequest _
  · rfl

theorem pullCallbackActions_any_ackDone (err : Bool) (ms : Option (List Message)) (i : Nat) :
    (pullCallbackActions err ms i).any isAckDone = false := by
  cases err <;> cases ms <;>
    simp [pullCallbackActions, isAckDone, List.any_map, Function.comp]

theorem pullCallbackActions_any_ackRequest (err : Bool) (ms : Option (List Message)) (i : Nat) :
    (pullCallbackActions err ms i).any isAckRequest = false := by
  cases err <;> cases ms <;>
    simp [pullCallbackActions, isAckRequest, List.any_map, Function.comp]

theorem occursBefore_of_no_q (p q : Action → Bool) (xs : List Action)
    (h : xs.any q = false) : occursBefore p q xs = false := by
  induction xs with
  | nil => rfl
  | cons a xs ih =>
    simp only [List.any_cons, Bool.or_eq_false_iff] at h
    simp [occursBefore, h.1, h.2, ih h.2]

theorem occursBefore_of_no_p (p q : Action → Bool) (xs : List Action)
    (h : xs.any p = false) : occursBefore p q xs = false := by
  induction xs with
  | nil => rfl
  | cons a xs ih =>
    simp only [List.any_cons, Bool.or_eq_false_iff] at h
    simp [occursBefore, h.1, h.2, ih h.2]

theorem occursBefore_append (p q : Action → Bool) (xs ys : List Action) :
    occursBefore p q (xs ++ ys) =
      (occursBefore p q xs || (xs.any p && ys.any q) || occursBefore p q ys) := by
  induction xs with
  | nil => simp [occursBefore]
  | cons a xs ih =>
    show ((p a && (xs ++ ys).any q) || occursBefore p q (xs ++ ys)) =
      ((((p a && xs.any q) || occursBefore p q xs) || ((p a || xs.any p) && ys.any q)) ||
        occursBefore p q ys)
    rw [ih, List.any_append]
    generalize p a = A
    generalize xs.any p = D
    generalize xs.any q = B
    generalize ys.any q = C
    generalize occursBefore p q xs = X
    generalize occursBefore p q ys = Y
    cases A <;> cases B <;> cases C <;> cases D <;> cases X <;> cases Y <;> rfl

theorem mem_trackAckId_self (t : List String) (a : String) : a ∈ trackAckId t a := by
  by_cases h : a ∈ t <;> simp [trackAckId, h]

theorem mem_trackAckId_of_mem (t : List String) (a b : String) (h : b ∈ t) :
    b ∈ trackAckId t a := by
  by_cases h2 : a ∈ t <;> simp [trackAckId, h2, h]

theorem mem_foldl_decorate_preserve (ms : List Message) (s : SubState) (b : String)
    (h : b ∈ s.inProgressAckIds) : b ∈ (ms.foldl decorateMessage_ s).inProgressAckIds := by
  induction ms generalizing s with
  | nil => exact h
  | cons x xs ih => exact ih _ (mem_trackAckId_of_mem _ _ _ h)

theorem mem_foldl_decorate (ms : List Message) (s : SubState) (m : Message)
    (hm : m ∈ ms) : m.ackId ∈ (ms.foldl decorateMessage_ s).inProgressAckIds := by
  induction ms generalizing s with
  | nil => cases hm
  | cons x xs ih =>
    rcases List.mem_cons.mp hm with h | h
    · subst h
      exact mem_foldl_decorate_preserve xs _ _ (mem_trackAckId_self _ _)
    · exact ih _ h

theorem trackAckId_nodup (t : List String) (ht : t.Nodup) (a : String) :
    (trackAckId t a).Nodup := by
  by_cases h : a ∈ t <;> simp [trackAckId, h, List.nodup_append, ht]

theorem resolveAck_nodup (t : List String) (ht : t.Nodup) (a : String) :
    (resolveAck t a).Nodup :=
  ht.filter _

theorem trackAckId_toFinset (t : List String) (a : String) :
    (trackAckId t a).toFinset = insert a t.toFinset := by
  by_cases h : a ∈ t
  · simp [trackAckId, h, Finset.insert_eq_self.mpr (List.mem_toFinset.mpr h)]
  · simp only [trackAckId, h, if_neg]
    ext b
    simp [or_comm]

theorem resolveAck_toFinset (t : List String) (a : String) :
    (resolveAck t a).toFinset = t.toFinset.erase a := by
  ext b
  simp [resolveAck, Finset.mem_erase, List.mem_filter, and_comm]

theorem resolveAck_of_not_mem (t : List String) (a : String) (h : a ∉ t) :
    resolveAck t a = t := by
  apply List.filter_eq_self.mpr
  intro b hb
  simp only [decide_eq_true_eq]
  intro hba
  exact h (hba ▸ hb)

theorem applyOps_nodup_toFinset (ops : List TrackerOp) (t : List String) (ht : t.Nodup) :
    (applyOps t ops).Nodup ∧ (applyOps t ops).toFinset = setSem t.toFinset ops := by
  induction ops generalizing t with
  | nil => exact ⟨ht, rfl⟩
  | cons op ops ih =>
    cases op with
    | track a =>
      have h := ih (trackAckId t a) (trackAckId_nodup t ht a)
      refine ⟨h.1, ?_⟩
      show (applyOps (trackAckId t a) ops).toFinset = setSem (insert a t.toFinset) ops
      rw [← trackAckId_toFinset]
      exact h.2
    | resolve a =>
      have h := ih (resolveAck t a) (resolveAck_nodup t ht a)
      refine ⟨h.1, ?_⟩
      show (applyOps (resolveAck t a) ops).toFinset = setSem (t.toFinset.erase a) ops
      rw [← resolveAck_toFinset]
      exact h.2

theorem ackComplete_snd_any_emit (s : SubState) (ids : List String) (ok : Bool) :
    (ackComplete s ids ok).2.1.any isEmitMessage = false := by
  cases ok
  · rfl
  · simp only [ackComplete, if_pos]
    exact refresh_snd_any_emit _

theorem ackComplete_snd_any_ackRequest (s : SubState) (ids : List String) (ok : Bool) :
    (ackComplete s ids ok).2.1.any isAckRequest = false := by
  cases ok
  · rfl
  · simp only [ackComplete, if_pos]
    exact refresh_snd_any_ackRequest _

theorem ackComplete_err (s : SubState) (ids : List String) (ok : Bool) :
    (ackComplete s ids ok).2.2 = !ok := by
  cases ok <;> rfl

theorem ackRequest_not_mem_of_any_false (xs : List Action) (ids : List String)
    (hany : xs.any isAckRequest = false) : Action.ackRequest ids ∉ xs := by
  intro hmem
  have h : xs.any isAckRequest = true := List.any_eq_true.mpr ⟨_, hmem, rfl⟩
  rw [hany] at h
  exact Bool.false_ne_true h

theorem emit_mem_pullCallbackActions (err : Bool) (ms : List Message) (i : Nat)
    (m : Message) (hm : m ∈ ms) :
    Action.emitMessage m ∈ pullCallbackActions err (some ms) i := by
  cases err <;> simp [pullCallbackActions, List.mem_map] <;> exact hm

theorem startPulling_acts_open (s : SubState) (hc : s.closed = false)
    (hp : s.paused = false) :
    startPulling_acts s = [Action.pullRequest false (pullMaxMessages (maxResultsOf s))] := by
  have h : ¬(s.closed = true ∨ s.paused = true) := by simp [hc, hp]
  simp [startPulling_acts, startPulling_issue, h]

theorem refresh_resume (s : SubState) (hp : s.paused = true) (hc : s.closed = false)
    (hl : s.messageListeners > 0)
    (hcap : isAtCapacity s.maxInProgress s.inProgressAckIds.length = false) :
    (refreshPausedStatus_ s).1.paused = false ∧
    (refreshPausedStatus_ s).2 =
      [Action.pullRequest false (pullMaxMessages (maxResultsOf s))] := by
  constructor
  · rw [refreshPausedStatus_fst, hcap]
  · simp only [refreshPausedStatus_]
    rw [if_pos]
    · rw [startPulling_acts_open]
      · rfl
      · exact hc
      · simp [hcap]
    · exact ⟨hp, by simp [hcap], hl⟩

theorem occursBefore_append_false (p q : Action → Bool) (xs ys : List Action)
    (h1 : xs.any p = false) (h2 : ys.any q = false) :
    occursBefore p q (xs ++ ys) = false := by
  simp [occursBefore_append, occursBefore_of_no_p p q xs h1, h1,
    occursBefore_of_no_q p q ys h2, h2]

/- Claim theorems. -/

/-- C4: every pull request issued by the poll loop (`startPulling_`) carries
`maxMessages = maxInProgress - count` when `maxInProgress` is bounded, and the
fixed ceiling `1000` when it is unbounded. -/
theorem c4_poll_loop_maxMessages (s : SubState)
    (hc : s.closed = false) (hp : s.paused = false) :
    startPulling_issue s = some (false,
      match s.maxInProgress with
      | some n => (n : Int) - (s.inProgressAckIds.length : Int)
      | none => 1000) := by
  have h : ¬(s.closed = true ∨ s.paused = true) := by simp [hc, hp]
  cases hm : s.maxInProgress <;>
    simp [startPulling_issue, h, pullMaxMessages, maxResultsOf, hm]

/-- C4 witness: a bounded subscriber with 1 of 3 slots used pulls with
`maxMessages = 2`; an unbounded one pulls with the ceiling `1000`. -/
theorem c4_poll_loop_maxMessages_witness :
    startPulling_issue
      { autoAck := false, interval := 10, maxInProgress := some 3, closed := false,
        paused := false, messageListeners := 1, inProgressAckIds := ["x"] } =
      some (false, 2) ∧
    startPulling_issue autoAckState = some (false, 1000) :=
  ⟨c4_poll_loop_maxMessages _ rfl rfl, c4_poll_loop_maxMessages autoAckState rfl rfl⟩

/-- C6: for a non-empty batch, `ack` issues exactly one `:acknowledge`
request (no retry); if the transport reports an error, the error is passed to
the caller's callback and the whole subscriber state — in particular the
in-progress ackId set — is unchanged. -/
theorem c6_ack_transport_error (s : SubState) (ackIds : List String)
    (h : ackIds ≠ []) :
    ack ackIds = Except.ok [Action.ackRequest ackIds] ∧
    ackComplete s ackIds false = (s, [], true) := by
  constructor
  · simp [ack, List.length_eq_zero, h]
  · rfl

/-- C6 witness: acking `["x"]` on a concrete subscriber and failing leaves
the state intact and passes the error. -/
theorem c6_ack_transport_error_witness :
    ack ["x"] = Except.ok [Action.ackRequest ["x"]] ∧
    ackComplete pausedOneState ["x"] false = (pausedOneState, [], true) :=
  c6_ack_transport_error pausedOneState ["x"] (by decide)

/-- C7: `ack` with an empty ackId list throws synchronously before any
request is issued; a non-empty list never triggers that synchronous error. -/
theorem c7_ack_empty_throws (ackIds : List String) :
    ack [] = Except.error
      "At least one ID must be specified before it can be acknowledged." ∧
    (ackIds ≠ [] → ack ackIds = Except.ok [Action.ackRequest ackIds]) := by
  refine ⟨rfl, fun h => ?_⟩
  simp [ack, List.length_eq_zero, h]

/-- C7 witness: `ack []` errors synchronously, `ack ["x"]` issues the
request without a synchronous error. -/
theorem c7_ack_empty_throws_witness :
    ack [] = Except.error
      "At least one ID must be specified before it can be acknowledged." ∧
    ack ["x"] = Except.ok [Action.ackRequest ["x"]] :=
  ⟨(c7_ack_empty_throws ["x"]).1, (c7_ack_empty_throws ["x"]).2 (by decide)⟩

/-- C8: a poll cycle whose pull fails with a transport error emits an
`error` event, leaves the subscriber state untouched, and still schedules the
next cycle after the poll interval — the loop does not stop. -/
theorem c8_pull_error_nonfatal (s : SubState) (ackOk : Bool) :
    (cycleComplete s none ackOk).trace =
      [Action.emitError, Action.scheduleNext s.interval] ∧
    (cycleComplete s none ackOk).state = s ∧
    (cycleComplete s none ackOk).cbErr = true :=
  ⟨rfl, rfl, rfl⟩

/-- C9: over every sequence of track/resolve operations the in-progress
count equals the number of distinct ackIds tracked and not yet resolved (a
set cardinality, hence never negative), and resolving an untracked ackId is
a total no-op. -/
theorem c9_tracker_algebra (ops : List TrackerOp) (t : List String) (a : String) :
    (applyOps [] ops).length = (setSem ∅ ops).card ∧
    (a ∉ t → applyOp t (TrackerOp.resolve a) = t) ∧
    0 ≤ (applyOps [] ops).length := by
  refine ⟨?_, fun h => resolveAck_of_not_mem t a h, Nat.zero_le _⟩
  have h := applyOps_nodup_toFinset ops [] List.nodup_nil
  rw [← List.toFinset_card_of_nodup h.1, h.2]
  rfl

/-- C9 witness: a concrete track/track/resolve sequence has count 1 and
resolving `"a"` on a tracker holding only `"b"` is a no-op. -/
theorem c9_tracker_algebra_witness :
    (applyOps [] [TrackerOp.track "a", TrackerOp.track "b",
      TrackerOp.resolve "a"]).length =
      (setSem ∅ [TrackerOp.track "a", TrackerOp.track "b",
        TrackerOp.resolve "a"]).card ∧
    applyOp ["b"] (TrackerOp.resolve "a") = ["b"] :=
  ⟨(c9_tracker_algebra [TrackerOp.track "a", TrackerOp.track "b",
      TrackerOp.resolve "a"] ["b"] "a").1,
   (c9_tracker_algebra [TrackerOp.track "a", TrackerOp.track "b",
      TrackerOp.resolve "a"] ["b"] "a").2.1 (by decide)⟩

/-- C3: from the paused state, when a skip — or a successful batch ack —
removes ackIds so that the count drops below `maxInProgress` while a message
listener is active (and the subscriber is open), the subscriber unpauses and
a pull is issued immediately by `refreshPausedStatus_`, not via the poll
interval timer; with unbounded `maxInProgress` the paused flag is false
initially and after every refresh. -/
theorem c3_unpause_resumes_immediately (s : SubState) (a : String)
    (hp : s.paused = true) (hc : s.closed = false) (hl : s.messageListeners > 0)
    (hcap : isAtCapacity s.maxInProgress
      (resolveAck s.inProgressAckIds a).length = false) :
    ((skip s a).1.paused = false ∧
     ∃ mm, (skip s a).2 = [Action.pullRequest false mm]) ∧
    (∀ ackIds : List String,
       isAtCapacity s.maxInProgress
         (ackIds.foldl resolveAck s.inProgressAckIds).length = false →
       (ackComplete s ackIds true).1.paused = false ∧
       ∃ mm, (ackComplete s ackIds true).2.1 = [Action.pullRequest false mm]) ∧
    (∀ t : SubState, t.maxInProgress = none →
       (refreshPausedStatus_ t).1.paused = false) ∧
    (∀ opts : SubOptions, (mkSubscription opts).paused = false) := by
  refine ⟨?_, ?_, ?_, fun _ => rfl⟩
  · have h := refresh_resume
      { s with inProgressAckIds := resolveAck s.inProgressAckIds a }
      hp hc hl hcap
    exact ⟨h.1, _, h.2⟩
  · intro ackIds hcap2
    have h := refresh_resume
      { s with inProgressAckIds := ackIds.foldl resolveAck s.inProgressAckIds }
      hp hc hl hcap2
    exact ⟨h.1, _, h.2⟩
  · intro t ht
    rw [refreshPausedStatus_fst]
    simp [isAtCapacity, ht]

/-- C3 witness: with `maxInProgress = 1`, one in-progress message and one
listener, skipping that message unpauses the subscriber and immediately
issues a pull with `maxMessages = 1`. -/
theorem c3_unpause_resumes_immediately_witness :
    (skip pausedOneState "x").1.paused = false ∧
    (∃ mm, (skip pausedOneState "x").2 = [Action.pullRequest false mm]) ∧
    (ackComplete pausedOneState ["x"] true).1.paused = false := by
  have h := c3_unpause_resumes_immediately pausedOneState "x" rfl rfl
    (by decide) (by decide)
  exact ⟨h.1.1, h.1.2, (h.2.1 ["x"] (by decide)).1⟩

/-- C5: registering the first `message` listener while `closed` flips
`closed` to false, bumps the listener count, and (when not paused) issues
exactly one pull; removing the last listener sets `closed := true`, and with
`closed` set, `startPulling_` issues no further pull when the in-flight
cycle's timer re-invokes it. -/
theorem c5_listener_registry (s : SubState) (hc : s.closed = true) :
    ((onNewListener s "message").1.closed = false ∧
     (onNewListener s "message").1.messageListeners = s.messageListeners + 1 ∧
     (s.paused = false →
       (onNewListener s "message").2 =
         [Action.pullRequest false (pullMaxMessages (maxResultsOf s))])) ∧
    (∀ t : SubState, t.messageListeners = 1 →
       (onRemoveListener t "message").closed = true ∧
       (onRemoveListener t "message").messageListeners = 0) ∧
    (∀ t : SubState, t.closed = true → startPulling_acts t = []) := by
  refine ⟨?_, ?_, fun t ht => startPulling_acts_closed t ht⟩
  · have hmsg : ("message" : String) = "message" := rfl
    simp only [onNewListener, if_pos hmsg]
    have hcl : ({ s with messageListeners := s.messageListeners + 1 } :
        SubState).closed = true := hc
    rw [if_pos hcl]
    refine ⟨rfl, rfl, fun hp => ?_⟩
    rw [startPulling_acts_open]
    · rfl
    · rfl
    · exact hp
  · intro t ht
    simp [onRemoveListener, ht]

/-- C5 witness: on a fresh subscription the first `message` listener opens
it and issues one pull with the unbounded ceiling; on a one-listener open
subscriber the removal closes it, and a closed subscriber issues no pull. -/
theorem c5_listener_registry_witness :
    (onNewListener (mkSubscription {}) "message").1.closed = false ∧
    (onNewListener (mkSubscription {}) "message").2 =
      [Action.pullRequest false 1000] ∧
    (onRemoveListener autoAckState "message").closed = true ∧
    startPulling_acts closedState = [] := by
  have h := c5_listener_registry (mkSubscription {}) rfl
  exact ⟨h.1.1, h.1.2.2 rfl, (h.2.1 autoAckState rfl).1, h.2.2 closedState rfl⟩

/-- C1 counterexample: with `autoAck` on, a pull that returns two messages
completes the batch acknowledge before any `message` event is emitted — an
ack completion occurs strictly earlier in the cycle's trace than an
emission, so emission does not happen before the ack completes. -/
theorem c1_emission_before_ack_counterexample :
    autoAckState.autoAck = true ∧ autoAckState.closed = false ∧
    (cycleComplete autoAckState (some twoRaws) true).cbMessages =
      some [{ ackId := "a1" }, { ackId := "a2" }] ∧
    occursBefore isAckDone isEmitMessage
      (cycleComplete autoAckState (some twoRaws) true).trace = true := by
  decide

/-- C1 (amended): with `autoAck` on and a non-empty pull, the batch
acknowledge request for exactly the pulled ackIds is issued within the same
cycle and completes before any `message` event is emitted (no emission
occurs earlier in the trace than an ack completion), and the acknowledge
outcome is delivered as the error argument of the completion callback that
originated the pull. -/
theorem c1_ack_completes_before_emission (s : SubState) (raws : List RawMessage)
    (ackOk : Bool) (hA : s.autoAck = true) (hne : raws ≠ []) :
    Action.ackRequest ((raws.map formatMessage_).map Message.ackId) ∈
      (cycleComplete s (some raws) ackOk).trace ∧
    occursBefore isEmitMessage isAckDone
      (cycleComplete s (some raws) ackOk).trace = false ∧
    (cycleComplete s (some raws) ackOk).cbErr = !ackOk ∧
    (cycleComplete s (some raws) ackOk).cbMessages = some (raws.map formatMessage_) := by
  have hcond : s.autoAck = true ∧ (raws.map formatMessage_).length ≠ 0 := by
    refine ⟨hA, ?_⟩
    simp [List.length_eq_zero, hne]
  simp only [cycleComplete]
  rw [if_pos hcond]
  refine ⟨?_, ?_, ackComplete_err _ _ _, rfl⟩
  · exact List.mem_append_left _ (List.mem_append_left _
      (List.mem_append_right _ (List.mem_cons_self _ _)))
  · apply occursBefore_append_false
    · simp [List.any_append, refresh_snd_any_emit, ackComplete_snd_any_emit,
        isEmitMessage]
    · exact pullCallbackActions_any_ackDone _ _ _

/-- C1 witness: the amended theorem at the concrete two-message auto-ack
cycle with a failing acknowledge. -/
theorem c1_ack_completes_before_emission_witness :
    Action.ackRequest ["a1", "a2"] ∈
      (cycleComplete autoAckState (some twoRaws) false).trace ∧
    occursBefore isEmitMessage isAckDone
      (cycleComplete autoAckState (some twoRaws) false).trace = false ∧
    (cycleComplete autoAckState (some twoRaws) false).cbErr = true := by
  have h := c1_ack_completes_before_emission autoAckState twoRaws false rfl (by decide)
  exact ⟨h.1, h.2.1, h.2.2.1⟩

/-- C2 counterexample: a pull cycle completing while `closed = true` still
adds the received message's ackId to the in-progress set and still emits the
`message` event, so the results are not discarded. -/
theorem c2_closed_discard_counterexample :
    closedState.closed = true ∧
    (cycleComplete closedState (some [{ ackId := "a1" }]) true).state.inProgressAckIds =
      ["a1"] ∧
    Action.emitMessage { ackId := "a1" } ∈
      (cycleComplete closedState (some [{ ackId := "a1" }]) true).trace := by
  decide

/-- C2 (amended): once `closed` is true no further pull cycle is started
(`startPulling_` issues no request), but a pull cycle already in flight when
closure occurs is not discarded at completion: each received message is
still emitted as a `message` event (delivered to whatever listeners remain)
and its ackId is still added to the in-progress set (remaining there when
`autoAck` is off). -/
theorem c2_closed_stops_pulls_not_inflight (s : SubState) (raws : List RawMessage)
    (ackOk : Bool) (hc : s.closed = true) :
    startPulling_issue s = none ∧
    (∀ m ∈ raws.map formatMessage_,
       Action.emitMessage m ∈ (cycleComplete s (some raws) ackOk).trace) ∧
    (s.autoAck = false → ∀ r ∈ raws,
       r.ackId ∈ (cycleComplete s (some raws) ackOk).state.inProgressAckIds) := by
  refine ⟨by simp [startPulling_issue, hc], ?_, ?_⟩
  · intro m hm
    simp only [cycleComplete]
    split
    · exact List.mem_append_right _ (emit_mem_pullCallbackActions _ _ _ _ hm)
    · exact List.mem_append_right _ (emit_mem_pullCallbackActions _ _ _ _ hm)
  · intro hA r hr
    have hnc : ¬(s.autoAck = true ∧ (raws.map formatMessage_).length ≠ 0) := by
      simp [hA]
    simp only [cycleComplete]
    rw [if_neg hnc]
    show r.ackId ∈ (refreshPausedStatus_ _).1.inProgressAckIds
    rw [refreshPausedStatus_fst]
    exact mem_foldl_decorate _ _ (formatMessage_ r) (List.mem_map_of_mem _ hr)

/-- C2 witness: the amended theorem on the concrete closed subscriber with a
one-message in-flight response. -/
theorem c2_closed_stops_pulls_not_inflight_witness :
    startPulling_issue closedState = none ∧
    Action.emitMessage { ackId := "a1" } ∈
      (cycleComplete closedState (some [{ ackId := "a1" }]) true).trace ∧
    "a1" ∈ (cycleComplete closedState (some [{ ackId := "a1" }])
      true).state.inProgressAckIds := by
  have h := c2_closed_stops_pulls_not_inflight closedState [{ ackId := "a1" }] true rfl
  exact ⟨h.1, h.2.1 ({ ackId := "a1" } : Message) (by decide),
    h.2.2 rfl ({ ackId := "a1" } : RawMessage) (by decide)⟩

/-- C10: with `autoAck` on, an empty pull response invokes the callback with
an empty message list and no error, issuing no acknowledge request at all;
and any acknowledge request the cycle does issue carries a non-empty ackId
list, so `ack`'s synchronous empty-list error is unreachable from the
auto-ack path. -/
theorem c10_autoAck_never_acks_empty (s : SubState) (ackOk : Bool)
    (hA : s.autoAck = true) :
    ((cycleComplete s (some []) ackOk).cbMessages = some [] ∧
     (cycleComplete s (some []) ackOk).cbErr = false ∧
     (cycleComplete s (some []) ackOk).trace.any isAckRequest = false) ∧
    (∀ raws : List RawMessage, ∀ ids : List String,
       Action.ackRequest ids ∈ (cycleComplete s (some raws) ackOk).trace →
       ids ≠ [] ∧ ack ids = Except.ok [Action.ackRequest ids]) := by
  have hnc0 : ¬(s.autoAck = true ∧ (([] : List RawMessage).map formatMessage_).length ≠ 0) :=
    fun h => h.2 rfl
  refine ⟨?_, ?_⟩
  · simp only [cycleComplete]
    rw [if_neg hnc0]
    refine ⟨rfl, rfl, ?_⟩
    simp [List.any_append, refresh_snd_any_ackRequest, pullCallbackActions_any_ackRequest]
  · intro raws ids hmem
    have hok : ids ≠ [] → ack ids = Except.ok [Action.ackRequest ids] := by
      intro h
      simp [ack, List.length_eq_zero, h]
    by_cases hb : s.autoAck = true ∧ (raws.map formatMessage_).length ≠ 0
    · simp only [cycleComplete] at hmem
      rw [if_pos hb] at hmem
      rcases List.mem_append.mp hmem with hmem1 | hmemcb
      · rcases List.mem_append.mp hmem1 with hmem2 | hmemq
        · rcases List.mem_append.mp hmem2 with hmemp | hmeml
          · exact absurd hmemp (ackRequest_not_mem_of_any_false _ _
              (refresh_snd_any_ackRequest _))
          · rcases List.mem_cons.mp hmeml with heq | hmeml2
            · have hids : ids = (raws.map formatMessage_).map Message.ackId :=
                Action.ackRequest.inj heq
              have hraws : raws ≠ [] := fun h => hb.2 (by rw [h]; rfl)
              have hne3 : ids ≠ [] := by
                rw [hids]
                intro h
                exact hraws (List.map_eq_nil_iff.mp (List.map_eq_nil_iff.mp h))
              exact ⟨hne3, hok hne3⟩
            · rcases List.mem_cons.mp hmeml2 with heq2 | h0
              · exact Action.noConfusion heq2
              · cases h0
        · exact absurd hmemq (ackRequest_not_mem_of_any_false _ _
            (ackComplete_snd_any_ackRequest _ _ _))
      · exact absurd hmemcb (ackRequest_not_mem_of_any_false _ _
          (pullCallbackActions_any_ackRequest _ _ _))
    · simp only [cycleComplete] at hmem
      rw [if_neg hb] at hmem
      rcases List.mem_append.mp hmem with hmemp | hmemcb
      · exact absurd hmemp (ackRequest_not_mem_of_any_false _ _
          (refresh_snd_any_ackRequest _))
      · exact absurd hmemcb (ackRequest_not_mem_of_any_false _ _
          (pullCallbackActions_any_ackRequest _ _ _))

/-- C10 witness: the concrete auto-ack subscriber with an empty response
acks nothing; the two-message cycle's acknowledge batch is non-empty. -/
theorem c10_autoAck_never_acks_empty_witness :
    (cycleComplete autoAckState (some []) true).cbMessages = some [] ∧
    (cycleComplete autoAckState (some []) true).trace.any isAckRequest = false ∧
    (["a1", "a2"] : List String) ≠ [] := by
  have h := c10_autoAck_never_acks_empty autoAckState true rfl
  exact ⟨h.1.1, h.1.2.2, (h.2 twoRaws ["a1", "a2"] (by decide)).1⟩

end GcloudPubsub
